import Mathlib

/-!
Verification of the AUI CUA core: a shallow embedding of the browser pool
(`src/agents/base_commenter.py`), the model-call gateway
(`src/utils/model_client.py`), the operator action decoder, prompt builder
and continuation loop (`src/agents/operator_cua_policy.py`), and the
concurrent scheduler (`src/utils/parallel_runner.py`), together with
theorems settling the specification claims about them.
-/

/-! ### Generic string machinery (decimal rendering, substring search) -/

/-- Decimal digit character for a digit value (values above 9 clamp to '9'). -/
def digitChar : Nat → Char
  | 0 => '0'
  | 1 => '1'
  | 2 => '2'
  | 3 => '3'
  | 4 => '4'
  | 5 => '5'
  | 6 => '6'
  | 7 => '7'
  | 8 => '8'
  | _ => '9'

/-- Decimal rendering of a natural number, as Python's str(int). -/
def natChars (n : Nat) : List Char :=
  if h : n < 10 then [digitChar n]
  else natChars (n / 10) ++ [digitChar (n % 10)]
  decreasing_by exact Nat.div_lt_self (Nat.lt_of_lt_of_le (by norm_num) (Nat.le_of_not_lt h)) (by norm_num)

/-- Decimal rendering of an integer, as Python's str(int). -/
def intChars (i : Int) : List Char :=
  if i < 0 then '-' :: natChars i.natAbs else natChars i.natAbs

/-- String form of a natural number. -/
def natStr (n : Nat) : String := ⟨natChars n⟩

/-- String form of an integer. -/
def intStr (i : Int) : String := ⟨intChars i⟩

/-- Does the second list start with the first one? -/
def begins : List Char → List Char → Bool
  | [], _ => true
  | _ :: _, [] => false
  | a :: as, b :: bs => a == b && begins as bs

/-- Does `hay` contain `needle` as a contiguous segment? -/
def containsSub (needle : List Char) : List Char → Bool
  | [] => needle.isEmpty
  | h :: t => begins needle (h :: t) || containsSub needle t

/-- Substring containment at the string level (Python's `in`). -/
def strContains (needle hay : String) : Bool :=
  containsSub needle.data hay.data

/-- No asterisk character occurs in the list. -/
def noStar (l : List Char) : Bool := l.all (fun c => c != '*')

/-! ### Model Call Gateway (`ModelClient.call_model`, src/utils/model_client.py) -/

/-- `ModelClient._is_rate_limit_error`: an error is 429-class when its string
form contains "429". -/
def isRateLimitError (e : String) : Bool := strContains "429" e

/-- Locality classification: `is_local = model_config.get('provider') == 'local'`. -/
def isLocalProvider (provider : String) : Bool := provider == "local"

/-- Retry delay used by the local-model branch of `call_model`:
`min(2 + attempt * 0.5, 10)` where `attempt` counts the errors seen so far. -/
def localRetryDelay (attempt : Nat) : ℚ := min (2 + (attempt : ℚ) / 2) 10

/-- How one `call_model` invocation ended. -/
inductive CallEnd where
  | ok (response : String)
  | err (e : String)
  | hung
deriving DecidableEq, Repr

/-- Observable record of one `call_model` run: how it ended, how many calls to
the inference service it made, and the sleep delays between calls. -/
structure GatewayRun where
  outcome : CallEnd
  callsMade : Nat
  delays : List ℚ
deriving DecidableEq, Repr

/-- The retry loop of `call_model` (src/utils/model_client.py lines 208-276),
run against a script of per-call results. `attempt` is the error counter
(incremented on each exception). Local models retry every error with a capped
growing delay; cloud models retry only rate-limit errors while
`attempt <= max_retries` (5), sleeping a constant 2, and raise anything else. -/
def callModelAux (isLocal : Bool) (attempt : Nat) : List (Except String String) → GatewayRun
  | [] => ⟨.hung, 0, []⟩
  | o :: rest =>
    match o with
    | .ok s => ⟨.ok s, 1, []⟩
    | .error e =>
      let att := attempt + 1
      if isLocal then
        let r := callModelAux isLocal att rest
        ⟨r.outcome, r.callsMade + 1, localRetryDelay att :: r.delays⟩
      else if isRateLimitError e = true ∧ att ≤ 5 then
        let r := callModelAux isLocal att rest
        ⟨r.outcome, r.callsMade + 1, (2 : ℚ) :: r.delays⟩
      else ⟨.err e, 1, []⟩

/-- `ModelClient.call_model` for a model of the given provider, against a
script of per-call results. -/
def callModel (provider : String) (script : List (Except String String)) : GatewayRun :=
  callModelAux (isLocalProvider provider) 0 script

/-! ### Browser Resource Pool (src/agents/base_commenter.py lines 13-59) -/

/-- Abstract state of the module-level browser pool: the idle list
`_browser_pool`, the available permits of `_browser_semaphore`, the number of
live (started, not closed) browsers, and a fresh-id counter naming sessions. -/
structure PoolState where
  idle : List Nat
  semAvail : Nat
  live : Nat
  nextId : Nat
deriving DecidableEq, Repr

/-- Initial module state: empty pool, `asyncio.Semaphore(5)`, no browsers. -/
def initialPoolState : PoolState := ⟨[], 5, 0, 0⟩

/-- `BaseCommenter._get_browser_from_pool`: pop an idle browser if one exists;
otherwise create a new one inside `async with _browser_semaphore`. The permit
is taken at block entry and released again when the block returns the new
browser, so the net permit count is unchanged; `none` models the caller
suspending because no permit is available at entry. -/
def getBrowserFromPool (s : PoolState) : Option (Nat × PoolState) :=
  match s.idle with
  | b :: rest => some (b, { s with idle := rest })
  | [] =>
    if s.semAvail = 0 then none
    else some (s.nextId, { s with live := s.live + 1, nextId := s.nextId + 1 })

/-- `BaseCommenter._return_browser_to_pool`: keep the browser if fewer than 3
are idle, otherwise close it (close failures are swallowed). The semaphore is
never touched on release. -/
def returnBrowserToPool (b : Nat) (s : PoolState) : PoolState :=
  if s.idle.length < 3 then { s with idle := b :: s.idle }
  else { s with live := s.live - 1 }

/-- Run `n` sequential `_get_browser_from_pool` calls with no intervening
release, collecting the acquired sessions; fails if any call would suspend. -/
def acquireMany : Nat → PoolState → Option (List Nat × PoolState)
  | 0, s => some ([], s)
  | n + 1, s =>
    match getBrowserFromPool s with
    | none => none
    | some (b, s1) =>
      match acquireMany n s1 with
      | none => none
      | some (bs, s2) => some (b :: bs, s2)

/-! ### Action Protocol Decoder, structured-object family
(`OperatorCUAPolicy._convert_openai_action_to_internal`,
src/agents/operator_cua_policy.py lines 198-278) -/

/-- An OpenAI computer-use action object. Each field is `none` when the
attribute is absent (`getattr` falls back to its default then). -/
structure OpenaiAction where
  type : Option String := none
  button : Option String := none
  x : Option Int := none
  y : Option Int := none
  text : Option String := none
  scroll_x : Option Int := none
  scroll_y : Option Int := none
  delta_x : Option Int := none
  delta_y : Option Int := none
  keys : Option (List String) := none
  key : Option String := none
  from_x : Option Int := none
  from_y : Option Int := none
  to_x : Option Int := none
  to_y : Option Int := none
deriving DecidableEq, Repr

/-- The internal action dictionaries produced by the operator policy, as a
tagged union (`action` key + its typed parameters). -/
inductive InternalAction where
  | leftClick (x y : Int)
  | rightClick (x y : Int)
  | doubleClick (x y : Int)
  | mouseMove (x y : Int)
  | typeText (text : String)
  | scroll (x y px py : Int)
  | keyPress (keys : List String)
  | wait (time : Int)
  | screenshot
  | drag (fx fy tx ty : Int)
  | terminate (status : String)
deriving DecidableEq, Repr

/-- Resolved drag origin x: `getattr(a, 'from_x', getattr(a, 'x', None))`. -/
def dragFromX (a : OpenaiAction) : Option Int :=
  match a.from_x with
  | some v => some v
  | none => a.x

/-- Resolved drag origin y: `getattr(a, 'from_y', getattr(a, 'y', None))`. -/
def dragFromY (a : OpenaiAction) : Option Int :=
  match a.from_y with
  | some v => some v
  | none => a.y

/-- `_convert_openai_action_to_internal`, parametrized by the policy's
display size (`self.display_width`, `self.display_height`; the operator
policy sets 1280x720). `Except.error` models the raised `RuntimeError`s. -/
def convertOpenaiActionToInternal (dw dh : Int) (a : OpenaiAction) :
    Except String InternalAction :=
  match a.type with
  | none => .error "Operator action missing type"
  | some t =>
    if t = "click" then
      let isRight : Bool := match a.button with
        | some b => b.toLower == "right"
        | none => false
      if isRight then .ok (.rightClick (a.x.getD 0) (a.y.getD 0))
      else .ok (.leftClick (a.x.getD 0) (a.y.getD 0))
    else if t = "double_click" ∨ t = "left_double" then
      .ok (.doubleClick (a.x.getD 0) (a.y.getD 0))
    else if t = "right_click" ∨ t = "right_single" then
      .ok (.rightClick (a.x.getD 0) (a.y.getD 0))
    else if t = "move" ∨ t = "mousemove" ∨ t = "pointer_move" then
      .ok (.mouseMove (a.x.getD 0) (a.y.getD 0))
    else if t = "type" then
      .ok (.typeText (a.text.getD ""))
    else if t = "scroll" then
      let sx := match a.scroll_x with
        | some v => v
        | none => a.delta_x.getD 0
      let sy := match a.scroll_y with
        | some v => v
        | none => a.delta_y.getD 0
      .ok (.scroll (a.x.getD (dw / 2)) (a.y.getD (dh / 2)) sx sy)
    else if t = "keypress" ∨ t = "key_press" ∨ t = "keydown" ∨ t = "key_down" ∨
            t = "keyup" ∨ t = "key_up" ∨ t = "key" then
      let ks : List String := match a.keys with
        | some l => l
        | none =>
          match a.key with
          | some k => if k.isEmpty then [] else [k]
          | none => []
      .ok (.keyPress ks)
    else if t = "wait" then .ok (.wait 2)
    else if t = "screenshot" then .ok .screenshot
    else if t = "drag" then
      match dragFromX a, dragFromY a, a.to_x, a.to_y with
      | some fx, some fy, some tx, some ty => .ok (.drag fx fy tx ty)
      | _, _, some tx, some ty => .ok (.mouseMove tx ty)
      | _, _, _, _ => .error "Operator drag action missing coordinates"
    else .error ("Unsupported OpenAI action type: " ++ t)

/-- The `type` strings the converter accepts (every other value raises). -/
def acceptedActionTypes : List String :=
  ["click", "double_click", "left_double", "right_click", "right_single",
   "move", "mousemove", "pointer_move", "type", "scroll",
   "keypress", "key_press", "keydown", "key_down", "keyup", "key_up", "key",
   "wait", "screenshot", "drag"]

/-! ### Trajectory model and operator prompt construction
(`OperatorCUAPolicy._build_computer_use_prompt`,
src/agents/operator_cua_policy.py lines 32-88, and
`build_operator_prompt`, src/agents/prompts/cua_prompts.py) -/

/-- Result of dispatching one action: `{success, error}`. -/
structure StepResult where
  success : Bool
  error : Option String := none
deriving DecidableEq, Repr

/-- One appended trajectory step. -/
structure TrajectoryStep where
  action : InternalAction
  result : StepResult
deriving DecidableEq, Repr

/-- The `action` key of an internal action dictionary. -/
def actionName : InternalAction → String
  | .leftClick _ _ => "left_click"
  | .rightClick _ _ => "right_click"
  | .doubleClick _ _ => "double_click"
  | .mouseMove _ _ => "mouse_move"
  | .typeText _ => "type"
  | .scroll _ _ _ _ => "scroll"
  | .keyPress _ => "key"
  | .wait _ => "wait"
  | .screenshot => "screenshot"
  | .drag _ _ _ _ => "drag"
  | .terminate _ => "terminate"

/-- Python's rendering of the coordinate list `[x, y]`. -/
def coordStr (x y : Int) : String :=
  "[" ++ intStr x ++ ", " ++ intStr y ++ "]"

/-- One history line for a recent step (operator variant, lines 47-68). The
scroll line reads `action.get('pixels', 0)`, a key the converter never sets,
so its direction is always computed from 0 (not negative, hence "up"). The
arrow text embeds the literal bytes found in the source file. -/
def renderStep (n : Nat) (t : TrajectoryStep) : String :=
  (match t.action with
   | .leftClick x y =>
     "Step " ++ natStr n ++ ": Clicked at (" ++ intStr x ++ ", " ++ intStr y ++ ")"
   | .typeText s => "Step " ++ natStr n ++ ": Typed '" ++ s ++ "'"
   | .scroll _ _ _ _ => "Step " ++ natStr n ++ ": Scrolled up"
   | .terminate st => "Step " ++ natStr n ++ ": Finished (" ++ st ++ ")"
   | a => "Step " ++ natStr n ++ ": " ++ actionName a) ++
  (if t.result.success then " â†’ Success\n"
   else " â†’ Failed: " ++ t.result.error.getD "unknown error" ++ "\n")

/-- Render the recent steps, numbering them from `n`. -/
def renderSteps : Nat → List TrajectoryStep → String
  | _, [] => ""
  | n, t :: rest => renderStep n t ++ renderSteps (n + 1) rest

/-- `history_context` accumulated over `recent = trajectory[-3:]` with step
numbers `len(trajectory) - len(recent) + i + 1`. -/
def historyContext (traj : List TrajectoryStep) : String :=
  let recent := traj.drop (traj.length - 3)
  renderSteps (traj.length - recent.length + 1) recent

/-- The coordinates of the last two steps when both carry `left_click`
dictionaries (`recent[-1]`, `recent[-2]` of `recent = trajectory[-3:]`, i.e.
the last and second-to-last steps); `none` when the trajectory has fewer than
two steps or either of the two is not a left click. -/
def lastClickPair (traj : List TrajectoryStep) : Option (Int × Int × Int × Int) :=
  match traj.reverse with
  | last :: secondLast :: _ =>
    match last.action, secondLast.action with
    | .leftClick x1 y1, .leftClick x2 y2 => some (x1, y1, x2, y2)
    | _, _ => none
  | _ => none

/-- The repeat warning computed from the last two steps (lines 70-79): set
exactly when both are `left_click` dictionaries with equal coordinates. -/
def repeatWarning (traj : List TrajectoryStep) : String :=
  match lastClickPair traj with
  | some (x1, y1, x2, y2) =>
    if x1 = x2 ∧ y1 = y2 then
      "\n**CRITICAL**: You clicked point " ++ coordStr x1 y1 ++
      " twice! Check if task is complete before clicking again."
    else ""
  | none => ""

/-- Decidable form of the repeat condition: the trajectory has at least two
steps and the last two are left clicks at the identical coordinate. -/
def lastTwoSameClick (traj : List TrajectoryStep) : Bool :=
  match lastClickPair traj with
  | some (x1, y1, x2, y2) => decide (x1 = x2 ∧ y1 = y2)
  | none => false

/-- `build_operator_prompt` (src/agents/prompts/cua_prompts.py lines 34-45). -/
def buildOperatorPrompt (taskDescription repeatWarn historyCtx : String)
    (currentStep maxSteps : Nat) : String :=
  "Complete this task: " ++ taskDescription ++ "\n\n" ++ repeatWarn ++
  "\n\nContext from previous actions:\n" ++ historyCtx ++
  "\n\nCurrent step: " ++ natStr currentStep ++ "/" ++ natStr maxSteps ++
  "\n\nPlease analyze the current state and take the next action to complete the task. If the task appears to be completed successfully, you may finish."

/-- `OperatorCUAPolicy._build_computer_use_prompt`: assemble history and
warning from the trajectory, then delegate to `build_operator_prompt` (an
empty history is replaced by "No previous actions"). -/
def buildComputerUsePrompt (maxSteps : Nat) (taskDescription : String)
    (traj : List TrajectoryStep) (currentStep : Nat) : String :=
  let hist := historyContext traj
  buildOperatorPrompt taskDescription (repeatWarning traj)
    (if hist = "" then "No previous actions" else hist) currentStep maxSteps

/-- The coordinate-independent marker text of the repeat warning. -/
def warningMarker : String := "**CRITICAL**: You clicked point"

/-- Star-freeness of the free-text fields of one trajectory step (the fixed
rendering text never introduces an asterisk; these are the only places model
or browser supplied text reaches the history lines). -/
def stepStarFree (t : TrajectoryStep) : Bool :=
  (match t.action with
   | .typeText s => noStar s.data
   | .terminate s => noStar s.data
   | _ => true) &&
  (match t.result.error with
   | some e => noStar e.data
   | none => true)


/-! ### Operator continuation state machine
(`OperatorCUAPolicy.execute_task` lines 24-30 and
`OperatorCUAPolicy._get_computer_use_action` lines 90-196) -/

/-- The policy's loop state: `_last_response_id` and `_last_call_id`. -/
structure ContState where
  lastResponseId : Option String
  lastCallId : Option String
deriving DecidableEq, Repr

/-- Python truthiness of `self._last_response_id`: unset when the attribute is
`None` or the empty string. -/
def isUnsetId : Option String → Bool
  | none => true
  | some s => s.isEmpty

/-- `execute_task` resets both identifiers to `None` before delegating. -/
def resetContState : ContState := ⟨none, none⟩

/-- One item of a Responses API output list; only whether it is a
`computer_call` (and then its optional `call_id` and action) matters here. -/
inductive OutputItem where
  | computerCall (callId : Option String) (act : OpenaiAction)
  | reasoningItem
  | messageItem
deriving DecidableEq, Repr

/-- A Responses API response object: an optional `id` attribute and an output
list. -/
structure OpResponse where
  id : Option String
  output : List OutputItem
deriving DecidableEq, Repr

/-- What one gateway call produced: an exception, a falsy response, or a
response object. -/
inductive CallOutcome where
  | exn (e : String)
  | emptyResp
  | resp (r : OpResponse)
deriving DecidableEq, Repr

/-- A call issued to the gateway: `call_operator_initial`, or
`call_operator_next` with the stored identifiers. -/
inductive GatewayCall where
  | initialTurn
  | continuation (rid cid : Option String)
deriving DecidableEq, Repr

/-- The invocation mode the loop body selects from the current state
(lines 100-117): initial when `_last_response_id` is falsy, else continuation
with the two stored identifiers. -/
def modeFor (st : ContState) : GatewayCall :=
  if isUnsetId st.lastResponseId then .initialTurn
  else .continuation st.lastResponseId st.lastCallId

/-- `[item for item in response.output if ... item.type == "computer_call"][0]`. -/
def firstComputerCall : List OutputItem → Option (Option String × OpenaiAction)
  | [] => none
  | .computerCall cid a :: _ => some (cid, a)
  | _ :: rest => firstComputerCall rest

/-- How one `_get_computer_use_action` invocation ended: it returned a decoded
action, re-raised an exception after exhausting retries, or ran out of
scripted outcomes while still looping. -/
inductive GetRes where
  | yields (a : InternalAction)
  | raises (e : String)
  | starved
deriving DecidableEq, Repr

/-- Observable record of one `_get_computer_use_action` invocation: its
result, the policy state when it finished, and the gateway calls it made. -/
structure GetResult where
  res : GetRes
  state : ContState
  calls : List GatewayCall
deriving DecidableEq, Repr

/-- Classification of one loop iteration of `_get_computer_use_action`
(lines 96-196) by what the scripted call produced: a falsy response retries
without consulting the attempt bound (line 119-121); an exception from the
call, a response without a `computer_call` item, and a `RuntimeError` from
the converter all retry until `attempt >= max_retries` (5) and then raise
their respective error (lines 185-196); a response whose first
`computer_call` decodes is a successful turn carrying the response `id`, the
call's `call_id` and the decoded action. -/
inductive StepClass where
  | retryFree
  | failure (e : String)
  | success (rid cid : Option String) (a : InternalAction)
deriving DecidableEq, Repr

/-- Classify one gateway-call outcome as above. -/
def classifyOutcome (dw dh : Int) : CallOutcome → StepClass
  | .emptyResp => .retryFree
  | .exn e => .failure e
  | .resp r =>
    match firstComputerCall r.output with
    | none => .failure "Operator returned no computer_call after retries"
    | some (cid, oa) =>
      match convertOpenaiActionToInternal dw dh oa with
      | .error e => .failure e
      | .ok a => .success r.id cid a

/-- The retry loop of `_get_computer_use_action`, run against a script of
per-call outcomes. `attempt` is incremented at the top of each iteration; on
a successful turn `_last_response_id` and `_last_call_id` are updated (each
only if the attribute is present on the response / call) and the action is
returned; on every other iteration the state is left untouched. -/
def getComputerUseAction (dw dh : Int) (st : ContState) (attempt : Nat) :
    List CallOutcome → GetResult
  | [] => ⟨.starved, st, []⟩
  | o :: rest =>
    let att := attempt + 1
    let call := modeFor st
    match classifyOutcome dw dh o with
    | .retryFree =>
      let r := getComputerUseAction dw dh st att rest
      ⟨r.res, r.state, call :: r.calls⟩
    | .failure e =>
      if 5 ≤ att then ⟨.raises e, st, [call]⟩
      else
        let r := getComputerUseAction dw dh st att rest
        ⟨r.res, r.state, call :: r.calls⟩
    | .success rid cid a =>
      ⟨.yields a,
       ⟨match rid with
        | some i => some i
        | none => st.lastResponseId,
        match cid with
        | some i => some i
        | none => st.lastCallId⟩,
       [call]⟩

/-- Modelled from the spec: the per-attempt driver of `BaseCUAPolicy`
(src/agents/base_cua_policy.py is not part of the sources). Per spec section
4.4 it runs steps sequentially, calling `_get_computer_use_action` once per
step and threading the policy object's state; the attempt ends when a step
does not yield an action. -/
def runAttemptSteps (dw dh : Int) : ContState → List (List CallOutcome) → List GetResult
  | _, [] => []
  | st, os :: rest =>
    let r := getComputerUseAction dw dh st 0 os
    match r.res with
    | .yields _ => r :: runAttemptSteps dw dh r.state rest
    | _ => [r]

/-- `OperatorCUAPolicy.execute_task` (lines 24-30): reset the loop state, then
run the attempt from the reset state. -/
def executeTaskAttempt (dw dh : Int) (script : List (List CallOutcome)) : List GetResult :=
  runAttemptSteps dw dh resetContState script

/-! ### Concurrent Task Scheduler (`ParallelRunner`, src/utils/parallel_runner.py) -/

/-- The slice of a task result the scheduler inspects. -/
structure TaskResult where
  success : Bool
  error : Option String := none
deriving DecidableEq, Repr

/-- One collected entry of `run_parallel_tasks` (model, app, result). -/
structure RunEntry where
  model : String
  app : String
  result : TaskResult
deriving DecidableEq, Repr

/-- `ParallelRunner._run_single_task` (lines 87-139): run the task function
and, if it raises, return a failure result carrying the error message instead
of propagating the exception. -/
def runSingleTask (taskFunc : String → String → Except String TaskResult)
    (model app : String) : TaskResult :=
  match taskFunc model app with
  | .ok r => r
  | .error e => ⟨false, some e⟩

/-- The (model, app) pairs admitted by the nested loops of
`run_parallel_tasks` (lines 32-46): the full product in loop order, skipping
pairs outside `valid_combinations` when that filter is given. -/
def matrixPairs (models apps : List String)
    (validCombos : Option (List (String × String))) : List (String × String) :=
  (models.flatMap fun m => apps.map fun a => (m, a)).filter fun p =>
    match validCombos with
    | none => true
    | some vc => p ∈ vc

/-- Summary returned by `run_parallel_tasks` (lines 70-77). -/
structure RunSummary where
  totalTasks : Nat
  successfulTasks : Nat
  failedTasks : Nat
  results : List RunEntry
deriving DecidableEq, Repr

/-- `ParallelRunner.run_parallel_tasks`: run every admitted (model, app) pair
through `_run_single_task`, collect every outcome, and count successes and
failures. -/
def runParallelTasks (taskFunc : String → String → Except String TaskResult)
    (models apps : List String)
    (validCombos : Option (List (String × String))) : RunSummary :=
  let pairs := matrixPairs models apps validCombos
  let results := pairs.map fun p => RunEntry.mk p.1 p.2 (runSingleTask taskFunc p.1 p.2)
  let succ := (results.filter fun r => r.result.success).length
  ⟨results.length, succ, results.length - succ, results⟩

/-! ### Helper lemmas: substring search and star-freeness -/

theorem strData_append (a b : String) : (a ++ b).data = a.data ++ b.data := rfl

theorem begins_iff (n : List Char) : ∀ l, begins n l = true ↔ ∃ post, l = n ++ post := by
  induction n with
  | nil => intro l; simp [begins]
  | cons a as ih =>
    intro l
    cases l with
    | nil => simp [begins]
    | cons b bs =>
      simp only [begins, Bool.and_eq_true, beq_iff_eq]
      constructor
      · rintro ⟨rfl, h⟩
        obtain ⟨post, rfl⟩ := (ih bs).mp h
        exact ⟨post, rfl⟩
      · rintro ⟨post, h⟩
        rw [List.cons_append] at h
        injection h with h1 h2
        exact ⟨h1.symm, (ih bs).mpr ⟨post, h2⟩⟩

theorem containsSub_iff (n : List Char) :
    ∀ l, containsSub n l = true ↔ ∃ pre post, l = pre ++ (n ++ post) := by
  intro l
  induction l with
  | nil =>
    simp only [containsSub, List.isEmpty_iff]
    constructor
    · rintro rfl; exact ⟨[], [], rfl⟩
    · rintro ⟨pre, post, h⟩
      rcases List.append_eq_nil.mp h.symm with ⟨-, h2⟩
      exact (List.append_eq_nil.mp h2).1
  | cons c t ih =>
    simp only [containsSub, Bool.or_eq_true, begins_iff, ih]
    constructor
    · rintro (⟨post, hp⟩ | ⟨pre, post, hp⟩)
      · exact ⟨[], post, by simpa using hp⟩
      · exact ⟨c :: pre, post, by simp [hp]⟩
    · rintro ⟨pre, post, hp⟩
      cases pre with
      | nil => exact Or.inl ⟨post, by simpa using hp⟩
      | cons p ps =>
        rw [List.cons_append] at hp
        injection hp with h1 h2
        exact Or.inr ⟨ps, post, h2⟩

theorem containsSub_of_decomp {n pre post l : List Char}
    (h : l = pre ++ (n ++ post)) : containsSub n l = true :=
  (containsSub_iff n l).mpr ⟨pre, post, h⟩

theorem noStar_iff (l : List Char) : noStar l = true ↔ '*' ∉ l := by
  simp only [noStar, List.all_eq_true, bne_iff_ne, ne_eq]
  constructor
  · intro h hmem; exact h '*' hmem rfl
  · intro h c hc he; exact h (he ▸ hc)

theorem noStar_append (a b : List Char) : noStar (a ++ b) = (noStar a && noStar b) := by
  simp [noStar, List.all_append]

theorem noStarStr_append (a b : String) :
    noStar (a ++ b).data = (noStar a.data && noStar b.data) := by
  rw [strData_append, noStar_append]

theorem not_containsSub_marker_of_noStar {l : List Char}
    (h : noStar l = true) : containsSub warningMarker.data l = false := by
  by_contra hc
  obtain ⟨pre, post, hd⟩ := (containsSub_iff _ _).mp (Bool.of_not_eq_false hc)
  have hstar : '*' ∈ l := by
    rw [hd]
    have : '*' ∈ warningMarker.data := by decide
    simp [List.mem_append, this]
  exact (noStar_iff l).mp h hstar

theorem digitChar_ne_star (d : Nat) : digitChar d ≠ '*' := by
  unfold digitChar
  split <;> decide

theorem noStar_natChars (n : Nat) : noStar (natChars n) = true := by
  induction n using Nat.strong_induction_on with
  | _ n ih =>
    rw [natChars]
    split
    · simp [noStar, digitChar_ne_star]
    · rename_i h
      have hdiv : n / 10 < n :=
        Nat.div_lt_self (Nat.lt_of_lt_of_le (by norm_num) (Nat.le_of_not_lt h)) (by norm_num)
      rw [noStar_append, ih (n / 10) hdiv]
      simp [noStar, digitChar_ne_star]

theorem noStar_cons (c : Char) (l : List Char) :
    noStar (c :: l) = ((c != '*') && noStar l) := rfl

theorem noStar_intChars (i : Int) : noStar (intChars i) = true := by
  unfold intChars
  split
  · rw [noStar_cons, noStar_natChars]
    rfl
  · exact noStar_natChars i.natAbs

theorem noStar_natStr (n : Nat) : noStar (natStr n).data = true := noStar_natChars n

theorem noStar_intStr (i : Int) : noStar (intStr i).data = true := noStar_intChars i

theorem noStar_renderStep (n : Nat) (t : TrajectoryStep) (h : stepStarFree t = true) :
    noStar (renderStep n t).data = true := by
  obtain ⟨act, succ, err⟩ := t
  simp only [stepStarFree, Bool.and_eq_true] at h
  obtain ⟨h1, h2⟩ := h
  rw [renderStep, noStarStr_append, Bool.and_eq_true]
  refine ⟨?_, ?_⟩
  · cases act <;>
      simp only at h1 <;>
      simp [noStar_cons, noStar_append, noStar_natStr, noStar_intStr, actionName, h1] <;>
      try decide
  · cases succ <;> cases err <;>
      simp only at h2 <;>
      simp [noStar_cons, noStar_append, h2] <;>
      try decide

theorem noStar_renderSteps (k : Nat) (l : List TrajectoryStep)
    (h : ∀ t ∈ l, stepStarFree t = true) :
    noStar (renderSteps k l).data = true := by
  induction l generalizing k with
  | nil => rfl
  | cons t rest ih =>
    rw [renderSteps, noStarStr_append,
        noStar_renderStep k t (h t (by simp)),
        ih (k + 1) (fun x hx => h x (by simp [hx]))]
    rfl

theorem noStar_historyContext (traj : List TrajectoryStep)
    (h : ∀ t ∈ traj, stepStarFree t = true) :
    noStar (historyContext traj).data = true := by
  rw [historyContext]
  exact noStar_renderSteps _ _ (fun t ht => h t (List.mem_of_mem_drop ht))

theorem repeatWarning_empty (traj : List TrajectoryStep)
    (h : lastTwoSameClick traj = false) : repeatWarning traj = "" := by
  rw [repeatWarning]
  rw [lastTwoSameClick] at h
  rcases hc : lastClickPair traj with - | ⟨x1, y1, x2, y2⟩
  · simp
  · rw [hc] at h
    simp only at h
    exact if_neg (of_decide_eq_false h)

theorem repeatWarning_data_decomp (traj : List TrajectoryStep)
    (h : lastTwoSameClick traj = true) :
    ∃ x y : Int, (repeatWarning traj).data =
      '\n' :: (warningMarker.data ++
        (" " ++ coordStr x y ++
          " twice! Check if task is complete before clicking again.").data) := by
  rw [lastTwoSameClick] at h
  rcases hc : lastClickPair traj with - | ⟨x1, y1, x2, y2⟩
  · rw [hc] at h; simp at h
  · rw [hc] at h
    simp only [decide_eq_true_eq] at h
    refine ⟨x1, y1, ?_⟩
    rw [repeatWarning, hc]
    simp only [if_pos h]
    simp [strData_append, warningMarker, List.append_assoc]

/-! ### Claim theorems -/

/-- Claim C7: for every trajectory whose last two steps are both clicks at the
identical coordinate, the operator prompt built for the next step contains
the repeat-warning string; for every other trajectory tail it does not. The
two star-freeness hypotheses say that the task description and the free-text
fields reaching the history lines contain no asterisk (the warning marker's
distinguishing character), which rules out an accidental occurrence of the
marker inside interpolated text. -/
theorem operator_prompt_repeat_warning_iff (maxSteps currentStep : Nat) (td : String)
    (traj : List TrajectoryStep)
    (htd : noStar td.data = true)
    (hsteps : ∀ t ∈ traj, stepStarFree t = true) :
    strContains warningMarker (buildComputerUsePrompt maxSteps td traj currentStep) = true
      ↔ lastTwoSameClick traj = true := by
  constructor
  · intro hc
    rcases Bool.eq_false_or_eq_true (lastTwoSameClick traj) with ht | hf
    · exact ht
    · exfalso
      have hw : repeatWarning traj = "" := repeatWarning_empty traj hf
      have hstar : noStar (buildComputerUsePrompt maxSteps td traj currentStep).data = true := by
        rw [buildComputerUsePrompt, buildOperatorPrompt, hw]
        simp only [noStarStr_append, Bool.and_eq_true]
        repeat' apply And.intro
        all_goals
          first
            | exact htd
            | exact noStar_natStr _
            | (split
               · decide
               · exact noStar_historyContext traj hsteps)
            | decide
      rw [strContains, not_containsSub_marker_of_noStar hstar] at hc
      exact Bool.false_ne_true hc
  · intro ht
    obtain ⟨x, y, hw⟩ := repeatWarning_data_decomp traj ht
    rw [strContains]
    have hdecomp : (buildComputerUsePrompt maxSteps td traj currentStep).data =
        (("Complete this task: " ++ td ++ "\n\n").data ++ ['\n']) ++
          (warningMarker.data ++
            ((" " ++ coordStr x y ++
                " twice! Check if task is complete before clicking again.").data ++
              ("\n\nContext from previous actions:\n" ++
                (if historyContext traj = "" then "No previous actions" else historyContext traj) ++
                "\n\nCurrent step: " ++ natStr currentStep ++ "/" ++ natStr maxSteps ++
                "\n\nPlease analyze the current state and take the next action to complete the task. If the task appears to be completed successfully, you may finish.").data)) := by
      rw [buildComputerUsePrompt, buildOperatorPrompt]
      simp [strData_append, hw, List.append_assoc]
    exact containsSub_of_decomp hdecomp

theorem remote_calls_le (script : List (Except String String)) :
    ∀ att, (callModelAux false att script).callsMade ≤ 6 - min att 5 := by
  induction script with
  | nil => intro att; simp [callModelAux]
  | cons o rest ih =>
    intro att
    cases o with
    | ok s => simp only [callModelAux]; omega
    | error e =>
      simp only [callModelAux, Bool.false_eq_true, if_false]
      split
      · rename_i hcond
        have h2 := ih (att + 1)
        simp only []
        omega
      · simp only []
        omega

theorem remote_delays_two (script : List (Except String String)) :
    ∀ att d, d ∈ (callModelAux false att script).delays → d = 2 := by
  induction script with
  | nil => intro att d hd; simp [callModelAux] at hd
  | cons o rest ih =>
    intro att d hd
    cases o with
    | ok s => simp [callModelAux] at hd
    | error e =>
      simp only [callModelAux, Bool.false_eq_true, if_false] at hd
      split at hd
      · simp only [List.mem_cons] at hd
        rcases hd with rfl | hd
        · rfl
        · exact ih (att + 1) d hd
      · simp at hd

theorem remote_nonratelimit_immediate (att : Nat) (e : String)
    (rest : List (Except String String)) (h : isRateLimitError e = false) :
    callModelAux false att (Except.error e :: rest) = ⟨.err e, 1, []⟩ := by
  simp [callModelAux, h]

theorem callModelAux_local_script (s : String) (errs : List String) :
    ∀ att, callModelAux true att (errs.map Except.error ++ [Except.ok s]) =
      ⟨.ok s, errs.length + 1,
        (List.range errs.length).map fun i => localRetryDelay (att + i + 1)⟩ := by
  induction errs with
  | nil => intro att; simp [callModelAux]
  | cons e rest ih =>
    intro att
    simp only [List.map_cons, List.cons_append, callModelAux, if_true, List.append_eq]
    rw [ih (att + 1)]
    have hdel : (List.range (e :: rest).length).map (fun i => localRetryDelay (att + i + 1)) =
        localRetryDelay (att + 1) ::
          (List.range rest.length).map (fun i => localRetryDelay (att + 1 + i + 1)) := by
      simp only [List.length_cons, List.range_succ_eq_map, List.map_cons, List.map_map]
      refine congrArg₂ _ (congrArg localRetryDelay (by omega)) ?_
      exact List.map_congr_left fun a _ => congrArg localRetryDelay (by omega)
    rw [hdel]
    simp

/-- Claim C7 witness: a concrete two-click trajectory at (100, 200) whose
next prompt contains the warning marker. -/
theorem operator_prompt_repeat_warning_witness :
    strContains warningMarker
      (buildComputerUsePrompt 10 "Buy the cheapest milk"
        [⟨.leftClick 100 200, ⟨true, none⟩⟩, ⟨.leftClick 100 200, ⟨true, none⟩⟩] 3) = true :=
  (operator_prompt_repeat_warning_iff 10 3 "Buy the cheapest milk"
      [⟨.leftClick 100 200, ⟨true, none⟩⟩, ⟨.leftClick 100 200, ⟨true, none⟩⟩]
      (by decide) (by decide)).mpr (by decide)

/-- Claim C1 (evidence for the code bug): six sequential acquisitions from
the initial pool state, with no release in between, all return immediately
and leave six live browser sessions — above the advertised ceiling of five
(`asyncio.Semaphore(5)`, "Max 5 concurrent browsers") — because the
semaphore permit taken for a creation is released again as soon as
`_get_browser_from_pool` returns the new browser. Under the claim the sixth
call would have to suspend (`acquireMany 6` would be `none`). -/
theorem browser_pool_ceiling_exceeded :
    acquireMany 6 initialPoolState =
      some ([0, 1, 2, 3, 4, 5], { idle := [], semAvail := 5, live := 6, nextId := 6 }) ∧
    5 < 6 := by
  constructor
  · rfl
  · decide

/-- Claim C2: for a remote model, four rate-limit errors followed by a
success yield the successful response, and six consecutive rate-limit errors
make `call_model` raise the sixth error. -/
theorem remote_rate_limit_retry (provider : String) (hp : isLocalProvider provider = false)
    (e1 e2 e3 e4 s : String)
    (h1 : isRateLimitError e1 = true) (h2 : isRateLimitError e2 = true)
    (h3 : isRateLimitError e3 = true) (h4 : isRateLimitError e4 = true) :
    (callModel provider
        [.error e1, .error e2, .error e3, .error e4, .ok s]).outcome = .ok s ∧
    (∀ f1 f2 f3 f4 f5 f6 : String,
      isRateLimitError f1 = true → isRateLimitError f2 = true →
      isRateLimitError f3 = true → isRateLimitError f4 = true →
      isRateLimitError f5 = true → isRateLimitError f6 = true →
      (callModel provider
          [.error f1, .error f2, .error f3, .error f4, .error f5, .error f6]).outcome =
        .err f6) := by
  constructor
  · rw [callModel, hp]
    simp [callModelAux, h1, h2, h3, h4]
  · intro f1 f2 f3 f4 f5 f6 g1 g2 g3 g4 g5 g6
    rw [callModel, hp]
    simp [callModelAux, g1, g2, g3, g4, g5, g6]

/-- Claim C2 witness at concrete 429 errors and an Azure provider. -/
theorem remote_rate_limit_retry_witness :
    (callModel "azure_openai"
        [.error "HTTP 429", .error "HTTP 429", .error "HTTP 429", .error "HTTP 429",
         .ok "answer"]).outcome = .ok "answer" :=
  (remote_rate_limit_retry "azure_openai" (by decide) "HTTP 429" "HTTP 429" "HTTP 429"
      "HTTP 429" "answer" (by decide) (by decide) (by decide) (by decide)).1

/-- Claim C3 counterexample: the remote path of `call_model` surfaces a
non-rate-limit error immediately after the first attempt (no generic extra
retry, refuting "any non-rate-limit error is retried once generically"), and
five rate-limit errors followed by a success consume six attempts (refuting
"at most 5 attempts total"); the recorded retry delays are the constant 2,
not an exponential series from a 1-unit base. -/
theorem remote_retry_policy_counterexample :
    callModel "openai" [Except.error "connection reset", Except.ok "fine"] =
      { outcome := .err "connection reset", callsMade := 1, delays := [] } ∧
    callModel "openai"
        (List.replicate 5 (Except.error "429 Too Many Requests") ++ [Except.ok "done"]) =
      { outcome := .ok "done", callsMade := 6, delays := [2, 2, 2, 2, 2] } := by
  constructor
  · rfl
  · rfl

/-- Claim C3 as amended: for a remote model, `call_model` makes at most 6
attempts in total; every sleep between attempts is the constant 2 time
units; and a non-rate-limit error is raised immediately, whatever the
attempt counter, without any further call. -/
theorem remote_retry_policy_amended (provider : String)
    (hp : isLocalProvider provider = false) :
    (∀ script : List (Except String String),
      (callModel provider script).callsMade ≤ 6) ∧
    (∀ script : List (Except String String),
      ∀ d ∈ (callModel provider script).delays, d = 2) ∧
    (∀ (att : Nat) (e : String) (rest : List (Except String String)),
      isRateLimitError e = false →
      callModelAux (isLocalProvider provider) att (Except.error e :: rest) =
        ⟨.err e, 1, []⟩) := by
  refine ⟨?_, ?_, ?_⟩
  · intro script
    rw [callModel, hp]
    have := remote_calls_le script 0
    simpa using this
  · intro script d hd
    rw [callModel, hp] at hd
    exact remote_delays_two script 0 d hd
  · intro att e rest he
    rw [hp]
    exact remote_nonratelimit_immediate att e rest he

/-- Claim C3 amended witness: a concrete transport error is raised at once. -/
theorem remote_retry_policy_amended_witness :
    callModelAux (isLocalProvider "openai") 0
        [Except.error "connection refused"] =
      ⟨.err "connection refused", 1, []⟩ :=
  (remote_retry_policy_amended "openai" (by decide)).2.2 0 "connection refused" [] (by decide)

/-- Claim C4: a local model retries every error class without bound — any
finite error script followed by one success yields the successful response —
and the delay slept after the n-th consecutive failure is
`min(2 + 0.5 * n, 10)`, which is monotone in n and capped at 10. -/
theorem local_model_unbounded_retry :
    (∀ provider : String, isLocalProvider provider = true →
      ∀ (errs : List String) (s : String),
        (callModel provider (errs.map Except.error ++ [Except.ok s])).outcome = .ok s ∧
        (callModel provider (errs.map Except.error ++ [Except.ok s])).delays =
          (List.range errs.length).map fun i => localRetryDelay (i + 1)) ∧
    (∀ m n : Nat, m ≤ n → localRetryDelay m ≤ localRetryDelay n) ∧
    (∀ n : Nat, localRetryDelay n ≤ 10) := by
  refine ⟨?_, ?_, ?_⟩
  · intro provider hp errs s
    rw [callModel, hp, callModelAux_local_script]
    exact ⟨rfl, by simp⟩
  · intro m n hmn
    unfold localRetryDelay
    refine min_le_min (by
      have : (m : ℚ) ≤ n := by exact_mod_cast hmn
      linarith) le_rfl
  · intro n
    exact min_le_right _ _

/-- Claim C4 witness: fifty consecutive transport errors followed by one
success still return the success (the spec's own scenario). -/
theorem local_model_unbounded_retry_witness :
    (callModel "local"
        ((List.replicate 50 "transport error").map Except.error ++
          [Except.ok "recovered"])).outcome = .ok "recovered" :=
  ((local_model_unbounded_retry.1 "local" (by decide))
      (List.replicate 50 "transport error") "recovered").1

/-- Claim C5 counterexample: a structured drag object carrying only the two
destination coordinates (from-x and from-y absent, no x/y fallback either)
does not fail — the decoder returns a mouse-move Action to the destination,
a non-drag Action, refuting both halves of the claim. -/
theorem drag_missing_origin_counterexample :
    convertOpenaiActionToInternal 1280 720
        { type := some "drag", to_x := some 5, to_y := some 6 } =
      .ok (.mouseMove 5 6) := by
  rfl

/-- Claim C5 as amended: drag decoding fails exactly when a destination
coordinate (to-x or to-y) is missing; when both destination coordinates are
present but an origin coordinate (from-x with x as fallback, from-y with y)
is missing, the decoder returns a mouse-move Action to the destination
instead of failing; when all four resolve it returns the drag. -/
theorem drag_decode_amended (dw dh : Int) (a : OpenaiAction) (ht : a.type = some "drag") :
    (a.to_x = none ∨ a.to_y = none →
      convertOpenaiActionToInternal dw dh a =
        .error "Operator drag action missing coordinates") ∧
    (∀ tx ty : Int, a.to_x = some tx → a.to_y = some ty →
      (dragFromX a = none ∨ dragFromY a = none) →
      convertOpenaiActionToInternal dw dh a = .ok (.mouseMove tx ty)) ∧
    (∀ fx fy tx ty : Int, dragFromX a = some fx → dragFromY a = some fy →
      a.to_x = some tx → a.to_y = some ty →
      convertOpenaiActionToInternal dw dh a = .ok (.drag fx fy tx ty)) := by
  have hconv : convertOpenaiActionToInternal dw dh a =
      match dragFromX a, dragFromY a, a.to_x, a.to_y with
      | some fx, some fy, some tx, some ty => .ok (.drag fx fy tx ty)
      | _, _, some tx, some ty => .ok (.mouseMove tx ty)
      | _, _, _, _ => .error "Operator drag action missing coordinates" := by
    rw [convertOpenaiActionToInternal, ht]
    simp
  refine ⟨?_, ?_, ?_⟩
  · intro h
    rw [hconv]
    rcases hfx : dragFromX a with - | fx <;>
      rcases hfy : dragFromY a with - | fy <;>
      rcases htx : a.to_x with - | tx <;>
      rcases hty : a.to_y with - | ty <;>
      simp_all
  · intro tx ty htx hty h5
    rw [hconv, htx, hty]
    rcases hfx : dragFromX a with - | fx <;>
      rcases hfy : dragFromY a with - | fy <;>
      simp_all
  · intro fx fy tx ty h1 h2 h3 h4
    rw [hconv, h1, h2, h3, h4]

/-- Claim C5 amended witness: a fully specified drag decodes to the drag. -/
theorem drag_decode_amended_witness :
    convertOpenaiActionToInternal 1280 720
        { type := some "drag", from_x := some 1, from_y := some 2,
          to_x := some 3, to_y := some 4 } =
      .ok (.drag 1 2 3 4) :=
  (drag_decode_amended 1280 720 _ rfl).2.2 1 2 3 4 rfl rfl rfl rfl

/-- Claim C6: a structured action object without a `type` attribute, or with
a `type` outside the accepted set, always fails to decode with a raised
error and never produces an Action value. -/
theorem decode_missing_or_unknown_type (dw dh : Int) (a : OpenaiAction) :
    (a.type = none →
      convertOpenaiActionToInternal dw dh a = .error "Operator action missing type") ∧
    (∀ t : String, a.type = some t → t ∉ acceptedActionTypes →
      convertOpenaiActionToInternal dw dh a =
        .error ("Unsupported OpenAI action type: " ++ t)) := by
  constructor
  · intro h
    rw [convertOpenaiActionToInternal, h]
  · intro t ht hmem
    simp only [acceptedActionTypes, List.mem_cons, List.mem_singleton, not_or] at hmem
    obtain ⟨n1, n2, n3, n4, n5, n6, n7, n8, n9, n10, n11, n12, n13, n14, n15, n16, n17,
      n18, n19, n20⟩ := hmem
    rw [convertOpenaiActionToInternal, ht]
    simp [n1, n2, n3, n4, n5, n6, n7, n8, n9, n10, n11, n12, n13, n14, n15, n16, n17,
      n18, n19, n20]

/-- Claim C6 witness: an object of unknown type "flip" is rejected. -/
theorem decode_missing_or_unknown_type_witness :
    convertOpenaiActionToInternal 1280 720 { type := some "flip" } =
      .error ("Unsupported OpenAI action type: " ++ "flip") :=
  (decode_missing_or_unknown_type 1280 720 _).2 "flip" rfl (by decide)

/-- Claim C10 (implicit behaviour): for click, double-click, right-click and
move objects, absent x or y attributes do not fail decoding — `getattr`'s
default 0 is substituted for each absent coordinate, so a click with neither
coordinate decodes to a left click at (0, 0). -/
theorem click_missing_coords_default (dw dh : Int) (a : OpenaiAction) :
    (a.type = some "click" → a.button = none →
      convertOpenaiActionToInternal dw dh a = .ok (.leftClick (a.x.getD 0) (a.y.getD 0))) ∧
    (a.type = some "double_click" →
      convertOpenaiActionToInternal dw dh a = .ok (.doubleClick (a.x.getD 0) (a.y.getD 0))) ∧
    (a.type = some "right_click" →
      convertOpenaiActionToInternal dw dh a = .ok (.rightClick (a.x.getD 0) (a.y.getD 0))) ∧
    (a.type = some "move" →
      convertOpenaiActionToInternal dw dh a = .ok (.mouseMove (a.x.getD 0) (a.y.getD 0))) ∧
    (a.x = none → a.y = none → a.type = some "click" → a.button = none →
      convertOpenaiActionToInternal dw dh a = .ok (.leftClick 0 0)) := by
  refine ⟨?_, ?_, ?_, ?_, ?_⟩
  · intro ht hb
    rw [convertOpenaiActionToInternal, ht]
    simp [hb]
  · intro ht
    rw [convertOpenaiActionToInternal, ht]
    simp
  · intro ht
    rw [convertOpenaiActionToInternal, ht]
    simp
  · intro ht
    rw [convertOpenaiActionToInternal, ht]
    simp
  · intro hx hy ht hb
    rw [convertOpenaiActionToInternal, ht]
    simp [hb, hx, hy]

/-- Claim C10 witness: a bare click object decodes to a left click at the
origin. -/
theorem click_missing_coords_default_witness :
    convertOpenaiActionToInternal 1280 720 { type := some "click" } =
      .ok (.leftClick 0 0) :=
  (click_missing_coords_default 1280 720 _).2.2.2.2 rfl rfl rfl rfl

/-- Claim C8: the operator continuation-state invariant. Every gateway call
made by one `_get_computer_use_action` invocation uses the mode determined by
the policy state it started with (initial when `_last_response_id` is unset,
continuation carrying exactly the stored identifiers when set); the state is
left untouched by every invocation that does not yield an action; and a task
attempt starts from the reset (unset) state, so its first step's calls are
initial-mode. -/
theorem operator_continuation_state_invariant :
    (∀ (dw dh : Int) (st : ContState) (att : Nat) (os : List CallOutcome),
      ∀ c ∈ (getComputerUseAction dw dh st att os).calls, c = modeFor st) ∧
    (∀ st : ContState, isUnsetId st.lastResponseId = true → modeFor st = .initialTurn) ∧
    (∀ st : ContState, isUnsetId st.lastResponseId = false →
      modeFor st = .continuation st.lastResponseId st.lastCallId) ∧
    (∀ (dw dh : Int) (st : ContState) (att : Nat) (os : List CallOutcome),
      (∀ a, (getComputerUseAction dw dh st att os).res ≠ .yields a) →
      (getComputerUseAction dw dh st att os).state = st) ∧
    (∀ (dw dh : Int) (os : List CallOutcome) (rest : List (List CallOutcome)),
      (executeTaskAttempt dw dh (os :: rest)).head? =
        some (getComputerUseAction dw dh resetContState 0 os)) ∧
    isUnsetId resetContState.lastResponseId = true := by
  refine ⟨?_, ?_, ?_, ?_, ?_, rfl⟩
  · intro dw dh st att os
    induction os generalizing att with
    | nil => intro c hc; simp [getComputerUseAction] at hc
    | cons o rest ih =>
      intro c hc
      rcases hcl : classifyOutcome dw dh o with - | e | ⟨rid, cid, a⟩ <;>
        simp only [getComputerUseAction, hcl] at hc
      · rcases List.mem_cons.mp hc with rfl | hmem
        · rfl
        · exact ih (att + 1) c hmem
      · split at hc
        · simp only [List.mem_singleton] at hc
          exact hc
        · rcases List.mem_cons.mp hc with rfl | hmem
          · rfl
          · exact ih (att + 1) c hmem
      · simp only [List.mem_singleton] at hc
        exact hc
  · intro st h
    rw [modeFor, if_pos h]
  · intro st h
    rw [modeFor, if_neg (by rw [h]; exact Bool.false_ne_true)]
  · intro dw dh st att os
    induction os generalizing att with
    | nil => intro _; rfl
    | cons o rest ih =>
      intro hny
      rcases hcl : classifyOutcome dw dh o with - | e | ⟨rid, cid, a⟩ <;>
        simp only [getComputerUseAction, hcl] at hny ⊢
      · exact ih (att + 1) hny
      · split
        · rfl
        · rename_i hle
          rw [if_neg hle] at hny
          exact ih (att + 1) hny
      · exact absurd rfl (hny a)
  · intro dw dh os rest
    rw [executeTaskAttempt, runAttemptSteps]
    rcases hres : (getComputerUseAction dw dh resetContState 0 os).res with a | e | - <;>
      simp [hres]

/-- Claim C8 witness: an invocation that exhausts its script without yielding
leaves the stored identifiers exactly as they were. -/
theorem operator_continuation_state_invariant_witness :
    (getComputerUseAction 1280 720 ⟨some "resp-1", some "call-1"⟩ 0 []).state =
      ⟨some "resp-1", some "call-1"⟩ :=
  operator_continuation_state_invariant.2.2.2.1 1280 720 ⟨some "resp-1", some "call-1"⟩ 0 []
    (fun a h => by simp [getComputerUseAction] at h)

/-- Claim C9: the scheduler isolates per-attempt failures. Every admitted
(model, task) pair appears in the collected results with its own computed
outcome; a pair whose task function raises is recorded as that pair's
failure result carrying the error message (never propagated); and the
aggregate counts cover every pair. -/
theorem scheduler_error_isolation
    (taskFunc : String → String → Except String TaskResult)
    (models apps : List String) (vc : Option (List (String × String))) :
    (runParallelTasks taskFunc models apps vc).results =
      (matrixPairs models apps vc).map
        (fun p => RunEntry.mk p.1 p.2 (runSingleTask taskFunc p.1 p.2)) ∧
    (∀ m a : String, (m, a) ∈ matrixPairs models apps vc →
      RunEntry.mk m a (runSingleTask taskFunc m a) ∈
        (runParallelTasks taskFunc models apps vc).results) ∧
    (∀ m a e : String, (m, a) ∈ matrixPairs models apps vc → taskFunc m a = .error e →
      RunEntry.mk m a ⟨false, some e⟩ ∈ (runParallelTasks taskFunc models apps vc).results) ∧
    (runParallelTasks taskFunc models apps vc).totalTasks =
      (matrixPairs models apps vc).length ∧
    (runParallelTasks taskFunc models apps vc).totalTasks =
      (runParallelTasks taskFunc models apps vc).successfulTasks +
        (runParallelTasks taskFunc models apps vc).failedTasks := by
  refine ⟨rfl, ?_, ?_, ?_, ?_⟩
  · intro m a hm
    exact List.mem_map_of_mem _ hm
  · intro m a e hm he
    have hrun : runSingleTask taskFunc m a = ⟨false, some e⟩ := by
      rw [runSingleTask, he]
    rw [← hrun]
    exact List.mem_map_of_mem _ hm
  · simp [runParallelTasks]
  · have hle := List.length_filter_le (fun r : RunEntry => r.result.success)
      ((matrixPairs models apps vc).map
        (fun p => RunEntry.mk p.1 p.2 (runSingleTask taskFunc p.1 p.2)))
    simp only [runParallelTasks]
    omega

/-- Claim C9 witness: in a two-model matrix where one pair's task raises, the
failing pair is still collected as a failure entry with its message. -/
theorem scheduler_error_isolation_witness :
    RunEntry.mk "gpt5" "shop" ⟨false, some "boom"⟩ ∈
      (runParallelTasks
        (fun m a => if m = "gpt5" ∧ a = "shop" then .error "boom" else .ok ⟨true, none⟩)
        ["gpt5", "uitars"] ["shop"] none).results :=
  (scheduler_error_isolation
      (fun m a => if m = "gpt5" ∧ a = "shop" then .error "boom" else .ok ⟨true, none⟩)
      ["gpt5", "uitars"] ["shop"] none).2.2.1 "gpt5" "shop" "boom" (by decide) (by simp)
